import Mathlib

/-!
Verification of the protocol adapter and streaming state machine of the
VS Code LLM Server: the translation between the OpenAI / Anthropic wire
protocols and the VS Code language-model backend, and the two outbound
streaming state machines.

The embedding mirrors the TypeScript source:
  * `src/models/*`            — wire and internal data types
  * `src/handlers/openaiHandler.ts` (tool-calling revision)  — OpenAI adapter
  * `src/handlers/anthropicHandler.ts` (tool-calling revision) — Anthropic adapter
  * `src/handlers/vsCodeLmHandler.ts` — backend adapter `createMessage`

Host-environment primitives are made explicit: `JSON.parse` is a parameter
`String → Option Json` (a thrown decode error is `none`); `JSON.stringify`
is modelled by `Json.stringify`; the backend's `countTokens` capability is a
parameter `String → Nat`.  Nondeterministic response fields (uuid ids,
`created` timestamps, the echoed `model` string) are omitted from the
response records: no specified property mentions them.
-/

/-- A JSON value, as produced by the host's `JSON.parse` and consumed by
`JSON.stringify`.  Tool-call arguments are JSON objects on the wire. -/
inductive Json where
  | str (s : String)
  | num (n : Int)
  | jbool (b : Bool)
  | null
  | arr (elems : List Json)
  | obj (fields : List (String × Json))
deriving Repr

/-- Escape one character the way `JSON.stringify` does for the characters
that occur in this development (quote, backslash, newline, CR, tab). -/
def jsonEscapeChar (c : Char) : String :=
  if c = '"' then "\\\""
  else if c = '\\' then "\\\\"
  else if c = '\n' then "\\n"
  else if c = '\r' then "\\r"
  else if c = '\t' then "\\t"
  else String.singleton c

/-- The `JSON.stringify` escaping of a string body. -/
def jsonEscape (s : String) : String :=
  String.join (s.data.map jsonEscapeChar)

mutual

/-- The host's `JSON.stringify` on the modelled JSON values (compact form,
no spaces, object fields in insertion order — as V8 prints them). -/
def Json.stringify : Json → String
  | .str s => "\"" ++ jsonEscape s ++ "\""
  | .num n => toString n
  | .jbool b => cond b "true" "false"
  | .null => "null"
  | .arr xs => "[" ++ Json.stringifyList xs ++ "]"
  | .obj fs => "\x7b" ++ Json.stringifyFields fs ++ "\x7d"

/-- Comma-separated rendering of a JSON array body. -/
def Json.stringifyList : List Json → String
  | [] => ""
  | [x] => Json.stringify x
  | x :: y :: xs => Json.stringify x ++ "," ++ Json.stringifyList (y :: xs)

/-- Comma-separated rendering of a JSON object body. -/
def Json.stringifyFields : List (String × Json) → String
  | [] => ""
  | [(k, v)] => "\"" ++ jsonEscape k ++ "\":" ++ Json.stringify v
  | (k, v) :: f :: fs =>
      "\"" ++ jsonEscape k ++ "\":" ++ Json.stringify v ++ "," ++ Json.stringifyFields (f :: fs)

end

/-! ## Internal unified model (src/models/types.ts and the vscode LM API) -/

/-- Type `StreamChunk` (src/models/types.ts): the backend event stream consumed by
every outbound formatter.  `text` / `tool_call` / `usage` variants. -/
inductive StreamChunk where
  | text (text : String)
  | toolCall (id : String) (name : String) (arguments : Json)
  | usage (inputTokens : Nat) (outputTokens : Nat)
deriving Repr

/-- Role type `vscode.LanguageModelChatMessageRole`. -/
inductive LMRole where
  | user
  | assistant
deriving DecidableEq, Repr

/-- A `vscode.LanguageModel*Part` content part.  A
`LanguageModelToolResultPart` is always constructed by this code base with a
list of `LanguageModelTextPart`s, modelled by their string values. -/
inductive LMPart where
  | text (value : String)
  | toolCall (callId : String) (name : String) (input : Json)
  | toolResult (callId : String) (content : List String)
deriving Repr

/-- Message type `vscode.LanguageModelChatMessage`. -/
structure LMMessage where
  role : LMRole
  parts : List LMPart
deriving Repr

/-! ## OpenAI wire types (src/models/openaiTypes.ts) -/

namespace OpenAI

/-- Type `MessageRole`: `'system' | 'user' | 'assistant' | 'tool'`. -/
inductive MessageRole where
  | system
  | user
  | assistant
  | tool
deriving DecidableEq, Repr

/-- One `ContentPart` of a multimodal message: `type` discriminator plus the
`text` payload (`""` models an absent/empty — falsy — `text` field). -/
structure ContentPart where
  type : String
  text : String
deriving Repr

/-- Type `MessageContent`: `string | ContentPart[]`, with `null`/undefined made
explicit (the TypeScript field is effectively nullable at runtime). -/
inductive MessageContent where
  | str (s : String)
  | parts (ps : List ContentPart)
  | nullContent
deriving Repr

/-- Field `ToolCall.function`: name plus the JSON-encoded arguments string. -/
structure FunctionCall where
  name : String
  arguments : String
deriving Repr

/-- One `ToolCall` entry of an assistant message (`type` is always
`"function"`). -/
structure ToolCall where
  id : String
  function : FunctionCall
deriving Repr

/-- Type `ChatMessage`: one wire message.  An absent `tool_calls` array is the
empty list; `tool_call_id` is optional. -/
structure ChatMessage where
  role : MessageRole
  content : MessageContent
  tool_calls : List ToolCall := []
  tool_call_id : Option String := none
deriving Repr

/-- JavaScript truthiness of the optional `tool_call_id` string. -/
def toolCallIdTruthy : Option String → Bool
  | some s => s ≠ ""
  | none => false

/-- JavaScript truthiness of the `content` field (`''` and `null` are falsy,
any array is truthy). -/
def contentTruthy : MessageContent → Bool
  | .str s => s ≠ ""
  | .parts _ => true
  | .nullContent => false

/-- The value `JSON.stringify(message.content)` for the tool-result branch when the
content is not a string (the multimodal part array is serialized whole). -/
def contentToJson : MessageContent → Json
  | .str s => Json.str s
  | .parts ps => Json.arr (ps.map fun p => Json.obj [("type", Json.str p.type), ("text", Json.str p.text)])
  | .nullContent => Json.null

/-- The tool-result string:
`typeof message.content === 'string' ? message.content : JSON.stringify(message.content)`. -/
def toolResultString : MessageContent → String
  | .str s => s
  | c => Json.stringify (contentToJson c)

/-- The text extracted from a non-tool message's content: a string is taken
verbatim; a part array is filtered to truthy `type:"text"` parts and joined
with `\n`; `null` yields `""`. -/
def textContentOf : MessageContent → String
  | .str s => s
  | .parts ps =>
      String.intercalate "\n" ((ps.filter fun p => p.type = "text" ∧ p.text ≠ "").map (·.text))
  | .nullContent => ""

/-- The content parts built for one OpenAI wire message
(`convertToVsCodeLmMessages` body, tool-calling revision of
`openaiHandler.ts`).  `parseJson` is the host's `JSON.parse`; a decode
failure (`none`) skips that tool call. -/
def messageParts (parseJson : String → Option Json) (m : ChatMessage) : List LMPart :=
  let base : List LMPart :=
    if m.role = .tool ∧ toolCallIdTruthy m.tool_call_id ∧ contentTruthy m.content then
      [LMPart.toolResult (m.tool_call_id.getD "") [toolResultString m.content]]
    else
      let textContent := textContentOf m.content
      if textContent ≠ "" then [LMPart.text textContent] else []
  base ++ m.tool_calls.filterMap fun tc =>
    match parseJson tc.function.arguments with
    | some args => some (LMPart.toolCall tc.id tc.function.name args)
    | none => none

/-- Role mapping: `system`/`assistant` → assistant, `user`/`tool` → user. -/
def mapRole : MessageRole → LMRole
  | .system => .assistant
  | .assistant => .assistant
  | .user => .user
  | .tool => .user

/-- Function `convertToVsCodeLmMessages` (OpenAI): converts each wire message and
drops any message whose part list is empty. -/
def convertToVsCodeLmMessages (parseJson : String → Option Json)
    (messages : List ChatMessage) : List LMMessage :=
  messages.filterMap fun m =>
    let parts := messageParts parseJson m
    if parts.length > 0 then some ⟨mapRole m.role, parts⟩ else none

end OpenAI

/-! ## Anthropic wire types (src/models/anthropicTypes.ts) -/

namespace Anthropic

/-- Type `AnthropicRole`: `'user' | 'assistant'`. -/
inductive AnthropicRole where
  | user
  | assistant
deriving DecidableEq, Repr

/-- The `ImageBlock.source` payload (never inspected by the adapter). -/
structure ImageSource where
  type : String
  media_type : String
  data : String
deriving Repr

mutual

/-- Type `ContentBlock`: `TextBlock | ImageBlock | ToolUseBlock | ToolResultBlock`. -/
inductive ContentBlock where
  | text (text : String)
  | image (source : ImageSource)
  | toolUse (id : String) (name : String) (input : Json)
  | toolResult (tool_use_id : String) (content : BlockContent)

/-- A `string | ContentBlock[]` content value (used both for a message's
content and, recursively, for a tool-result block's content). -/
inductive BlockContent where
  | str (s : String)
  | blocks (bs : List ContentBlock)

end

/-- Type `AnthropicMessage`. -/
structure AnthropicMessage where
  role : AnthropicRole
  content : BlockContent

/-- The `SystemBlock` text values of a `SystemPrompt` array. -/
inductive SystemPrompt where
  | str (s : String)
  | blocks (texts : List String)

/-- Function `extractSystemPrompt`: absent prompt is `""`; an array of system blocks
is joined with `\n`. -/
def extractSystemPrompt : Option SystemPrompt → String
  | none => ""
  | some (.str s) => s
  | some (.blocks texts) => String.intercalate "\n" texts

/-- The tool-result flattening
`typeof block.content === 'string' ? block.content
 : block.content.map(c => c.type === 'text' ? c.text : '').join('\n')`. -/
def flattenToolResultContent : BlockContent → String
  | .str s => s
  | .blocks bs =>
      String.intercalate "\n" (bs.map fun c =>
        match c with
        | .text t => t
        | _ => "")

/-- The content parts built from one Anthropic message's block list
(`convertToVsCodeLmMessages` loop body, tool-calling revision): `text`
blocks become text parts, `tool_use` become tool-call parts, `tool_result`
become tool-result parts with flattened content, `image` blocks are
dropped. -/
def blockParts (bs : List ContentBlock) : List LMPart :=
  bs.filterMap fun b =>
    match b with
    | .text t => some (LMPart.text t)
    | .toolUse id name input => some (LMPart.toolCall id name input)
    | .toolResult tuid c => some (LMPart.toolResult tuid [flattenToolResultContent c])
    | .image _ => none

/-- The content parts built for one Anthropic wire message: a string content
is one text part, a block array is converted block by block. -/
def messageParts (m : AnthropicMessage) : List LMPart :=
  match m.content with
  | .str s => [LMPart.text s]
  | .blocks bs => blockParts bs

/-- Role mapping: `assistant` → assistant, anything else → user. -/
def mapRole : AnthropicRole → LMRole
  | .assistant => .assistant
  | .user => .user

/-- Function `convertToVsCodeLmMessages` (Anthropic, tool-calling revision): a
non-empty system prompt is prepended as a synthetic assistant message; each
conversation message is converted and dropped when its part list is
empty. -/
def convertToVsCodeLmMessages (messages : List AnthropicMessage)
    (system : Option SystemPrompt) : List LMMessage :=
  let systemPrompt := extractSystemPrompt system
  (if systemPrompt ≠ "" then [LMMessage.mk .assistant [LMPart.text systemPrompt]] else []) ++
  messages.filterMap fun m =>
    let parts := messageParts m
    if parts.length > 0 then some ⟨mapRole m.role, parts⟩ else none

end Anthropic

/-! ## Backend adapter (src/handlers/vsCodeLmHandler.ts) -/

namespace VsCodeLM

/-- The check `typeof chunk.input === 'object' && chunk.input` (JavaScript): arrays and
objects are objects and truthy; `null` is an object but falsy; strings,
numbers and booleans are not objects. -/
def jsObjectTruthy : Json → Bool
  | .obj _ => true
  | .arr _ => true
  | _ => false

/-- The serialized text a model tool-call part is converted to:
`JSON.stringify({type:'tool_call', name, arguments, callId})`. -/
def serializeToolCall (name : String) (input : Json) (callId : String) : String :=
  Json.stringify (Json.obj
    [("type", Json.str "tool_call"), ("name", Json.str name),
     ("arguments", input), ("callId", Json.str callId)])

/-- Member `countTokens`: returns `0` for empty/absent text without invoking
the client capability `ct`. -/
def handlerCountTokens (ct : String → Nat) (text : String) : Nat :=
  if text = "" then 0 else ct text

/-- The text content a chat message contributes to input-token counting:
text part values joined with `''`, other parts contributing `''`. -/
def messageCountText (m : LMMessage) : String :=
  String.join (m.parts.map fun p =>
    match p with
    | .text v => v
    | _ => "")

/-- Function `calculateTotalInputTokens`: per-message counts summed. -/
def calculateTotalInputTokens (ct : String → Nat) (messages : List LMMessage) : Nat :=
  (messages.map fun m => handlerCountTokens ct (messageCountText m)).sum

/-- The response-stream loop of `createMessage`: each model part yields at
most one `text` chunk (tool-call parts are serialized to text; invalid ones
and unknown part kinds are skipped), the yielded text is also accumulated,
and one terminal `usage` chunk reports `ct` applied to the accumulation. -/
def createMessageLoop (ct : String → Nat) (inputTokens : Nat) :
    List LMPart → String → List StreamChunk
  | [], accumulatedText =>
      [StreamChunk.usage inputTokens (handlerCountTokens ct accumulatedText)]
  | .text v :: rest, accumulatedText =>
      StreamChunk.text v :: createMessageLoop ct inputTokens rest (accumulatedText ++ v)
  | .toolCall callId name input :: rest, accumulatedText =>
      if name = "" ∨ callId = "" ∨ jsObjectTruthy input = false then
        createMessageLoop ct inputTokens rest accumulatedText
      else
        let toolCallText := serializeToolCall name input callId
        StreamChunk.text toolCallText ::
          createMessageLoop ct inputTokens rest (accumulatedText ++ toolCallText)
  | .toolResult _ _ :: rest, accumulatedText =>
      createMessageLoop ct inputTokens rest accumulatedText

/-- Function `createMessage`: the backend adapter's event stream for a request whose
converted messages are `messages` and whose model response stream is
`responseParts`; `ct` is the client's `countTokens` capability. -/
def createMessage (ct : String → Nat) (messages : List LMMessage)
    (responseParts : List LMPart) : List StreamChunk :=
  createMessageLoop ct (calculateTotalInputTokens ct messages) responseParts ""

end VsCodeLM

/-! ## Outbound non-streaming formatter — OpenAI
(`handleChatCompletion`, tool-calling revision of `openaiHandler.ts`) -/

namespace OpenAI

/-- Accumulator of the `for await` loop of `handleChatCompletion`. -/
structure FoldState where
  accumulatedText : String
  toolCalls : List ToolCall
  inputTokens : Nat
  outputTokens : Nat
deriving Repr

/-- One loop iteration: text is appended, a tool call is pushed with its
arguments re-serialized, a usage chunk overwrites both token counts. -/
def foldStep (s : FoldState) : StreamChunk → FoldState
  | .text t => { s with accumulatedText := s.accumulatedText ++ t }
  | .toolCall id name args =>
      { s with toolCalls := s.toolCalls ++ [⟨id, ⟨name, Json.stringify args⟩⟩] }
  | .usage i o => { s with inputTokens := i, outputTokens := o }

/-- The `usage` object of the response. -/
structure Usage where
  prompt_tokens : Nat
  completion_tokens : Nat
  total_tokens : Nat
deriving DecidableEq, Repr

/-- The response message `content`: `accumulatedText || null`. -/
inductive NullableString where
  | str (s : String)
  | null
deriving DecidableEq, Repr

/-- The `choices[0].message` of the response. -/
structure ResponseMessage where
  role : String
  content : NullableString
  tool_calls : List ToolCall
deriving Repr

/-- Type `ChatCompletionResponse`, restricted to its single choice's message,
`finish_reason` and `usage` (uuid `id`, `created` and the echoed `model`
are nondeterministic or constant and unspecified). -/
structure ChatCompletionResponse where
  message : ResponseMessage
  finish_reason : String
  usage : Usage
deriving Repr

/-- Function `handleChatCompletion`: the response for the backend event sequence `evs`:
fold all events, then `content := accumulatedText || null`,
`finish_reason := tool_calls.length > 0 ? 'tool_calls' : 'stop'`,
`usage := {prompt, completion, total}`. -/
def handleChatCompletion (evs : List StreamChunk) : ChatCompletionResponse :=
  let s := evs.foldl foldStep ⟨"", [], 0, 0⟩
  { message :=
      { role := "assistant"
        content := if s.accumulatedText ≠ "" then .str s.accumulatedText else .null
        tool_calls := s.toolCalls }
    finish_reason := if s.toolCalls.length > 0 then "tool_calls" else "stop"
    usage :=
      { prompt_tokens := s.inputTokens
        completion_tokens := s.outputTokens
        total_tokens := s.inputTokens + s.outputTokens } }

end OpenAI

/-! ## Outbound non-streaming formatter — Anthropic
(`handleMessages`, tool-calling revision of `anthropicHandler.ts`) -/

namespace Anthropic

/-- Accumulator of the `for await` loop of `handleMessages`. -/
structure FoldState where
  accumulatedText : String
  contentBlocks : List ContentBlock
  inputTokens : Nat
  outputTokens : Nat

/-- One loop iteration: text is appended, a tool call is pushed as a
`tool_use` block, a usage chunk overwrites both token counts. -/
def foldStep (s : FoldState) : StreamChunk → FoldState
  | .text t => { s with accumulatedText := s.accumulatedText ++ t }
  | .toolCall id name args =>
      { s with contentBlocks := s.contentBlocks ++ [ContentBlock.toolUse id name args] }
  | .usage i o => { s with inputTokens := i, outputTokens := o }

/-- The `usage` object of the response. -/
structure Usage where
  input_tokens : Nat
  output_tokens : Nat
deriving DecidableEq, Repr

/-- Type `MessagesResponse`, restricted to `content`, `stop_reason` and `usage`
(uuid `id`, the constant `type`/`role`/`stop_sequence` fields and the
echoed `model` are unspecified). -/
structure MessagesResponse where
  content : List ContentBlock
  stop_reason : String
  usage : Usage

/-- Function `handleMessages`: the response for the backend event sequence `evs`: fold all
events, then `content` is one text block (only when the accumulated text is
non-empty) followed by the collected `tool_use` blocks, and `stop_reason`
is `'tool_use'` when any tool call occurred, else `'end_turn'`. -/
def handleMessages (evs : List StreamChunk) : MessagesResponse :=
  let s := evs.foldl foldStep ⟨"", [], 0, 0⟩
  { content :=
      (if s.accumulatedText ≠ "" then [ContentBlock.text s.accumulatedText] else []) ++
        s.contentBlocks
    stop_reason := if s.contentBlocks.length > 0 then "tool_use" else "end_turn"
    usage := { input_tokens := s.inputTokens, output_tokens := s.outputTokens } }

end Anthropic

/-! ## Outbound streaming state machine — OpenAI
(`handleStreamingChatCompletion`, tool-calling revision) -/

namespace OpenAI

/-- A `tool_calls` delta entry of a streamed chunk (the `type:"function"`
discriminator is constant). -/
structure ToolCallDelta where
  index : Nat
  id : String
  name : String
  arguments : String
deriving DecidableEq, Repr

/-- The `delta` object of a streamed chunk: each field is present or
absent. -/
structure Delta where
  role : Option String := none
  content : Option String := none
  tool_calls : Option ToolCallDelta := none
deriving DecidableEq, Repr

/-- One streamed chunk, restricted to its single choice's `delta` and
`finish_reason` (`id`/`created`/`model` are per-request constants). -/
structure StreamedChunk where
  delta : Delta
  finish_reason : Option String
deriving DecidableEq, Repr

/-- The `for await` loop of `handleStreamingChatCompletion`, with its three
state variables `isFirstChunk`, `hasToolCalls` and `toolCallIndex`.  A text
event yields one content chunk (with `role` on the first chunk); a
tool-call event yields a role-only chunk first when no chunk has been sent,
then one `tool_calls` chunk; a usage event yields the final empty-delta
chunk with the `finish_reason`. -/
def streamLoop : List StreamChunk → Bool → Bool → Nat → List StreamedChunk
  | [], _, _, _ => []
  | .text t :: rest, isFirstChunk, hasToolCalls, toolCallIndex =>
      (if isFirstChunk then
        StreamedChunk.mk { role := some "assistant", content := some t } none
      else
        StreamedChunk.mk { content := some t } none) ::
      streamLoop rest false hasToolCalls toolCallIndex
  | .toolCall id name args :: rest, isFirstChunk, _, toolCallIndex =>
      (if isFirstChunk then [StreamedChunk.mk { role := some "assistant" } none] else []) ++
      StreamedChunk.mk { tool_calls := some ⟨toolCallIndex, id, name, Json.stringify args⟩ } none ::
      streamLoop rest false true (toolCallIndex + 1)
  | .usage _ _ :: rest, isFirstChunk, hasToolCalls, toolCallIndex =>
      StreamedChunk.mk {} (some (if hasToolCalls then "tool_calls" else "stop")) ::
      streamLoop rest isFirstChunk hasToolCalls toolCallIndex

/-- Function `handleStreamingChatCompletion`: the chunk sequence streamed for the
backend event sequence `evs` (the trailing `data: [DONE]` terminator frame
carries no chunk). -/
def handleStreamingChatCompletion (evs : List StreamChunk) : List StreamedChunk :=
  streamLoop evs true false 0

end OpenAI

/-! ## Outbound streaming state machine — Anthropic
(`handleStreamingMessages`, tool-calling revision) -/

namespace Anthropic

/-- One streamed SSE frame, carrying the fields the event grammar specifies
(`partial_json` strings are already serialized, as on the wire). -/
inductive Frame where
  | messageStart
  | contentBlockStartText (index : Nat)
  | contentBlockStartTool (index : Nat) (id : String) (name : String)
  | contentBlockDeltaText (index : Nat) (text : String)
  | contentBlockDeltaJson (index : Nat) (partialJson : String)
  | contentBlockStop (index : Nat)
  | messageDelta (stop_reason : String) (output_tokens : Nat)
  | messageStop
deriving DecidableEq, Repr

/-- The `for await` loop of `handleStreamingMessages` plus its epilogue,
with the state variables `contentBlockIndex`, `currentBlockIsOpen`,
`hasToolUse` and `outputTokens`.  A text event opens a text block when none
is open and always emits a text delta; a tool-call event closes any open
block (incrementing the index), emits start/delta/stop of a `tool_use`
block and increments the index; a usage event records the output tokens.
At end of stream any open block is closed, then `message_delta` and
`message_stop` are emitted. -/
def streamLoop : List StreamChunk → Nat → Bool → Bool → Nat → List Frame
  | [], contentBlockIndex, currentBlockIsOpen, hasToolUse, outputTokens =>
      (if currentBlockIsOpen then [Frame.contentBlockStop contentBlockIndex] else []) ++
      [Frame.messageDelta (if hasToolUse then "tool_use" else "end_turn") outputTokens,
       Frame.messageStop]
  | .text t :: rest, contentBlockIndex, currentBlockIsOpen, hasToolUse, outputTokens =>
      (if currentBlockIsOpen then [] else [Frame.contentBlockStartText contentBlockIndex]) ++
      Frame.contentBlockDeltaText contentBlockIndex t ::
      streamLoop rest contentBlockIndex true hasToolUse outputTokens
  | .toolCall id name args :: rest, contentBlockIndex, currentBlockIsOpen, _, outputTokens =>
      if currentBlockIsOpen then
        Frame.contentBlockStop contentBlockIndex ::
        Frame.contentBlockStartTool (contentBlockIndex + 1) id name ::
        Frame.contentBlockDeltaJson (contentBlockIndex + 1) (Json.stringify args) ::
        Frame.contentBlockStop (contentBlockIndex + 1) ::
        streamLoop rest (contentBlockIndex + 2) false true outputTokens
      else
        Frame.contentBlockStartTool contentBlockIndex id name ::
        Frame.contentBlockDeltaJson contentBlockIndex (Json.stringify args) ::
        Frame.contentBlockStop contentBlockIndex ::
        streamLoop rest (contentBlockIndex + 1) false true outputTokens
  | .usage _ o :: rest, contentBlockIndex, currentBlockIsOpen, hasToolUse, _ =>
      streamLoop rest contentBlockIndex currentBlockIsOpen hasToolUse o

/-- Function `handleStreamingMessages`: the frame sequence streamed for the backend
event sequence `evs` — `message_start` first, then the loop over events and
the epilogue. -/
def handleStreamingMessages (evs : List StreamChunk) : List Frame :=
  Frame.messageStart :: streamLoop evs 0 false false 0

end Anthropic

/-! ## Specification-side views of a backend event sequence -/

/-- The concatenation of all `TextDelta.text` values of a run. -/
def concatText : List StreamChunk → String
  | [] => ""
  | .text t :: rest => t ++ concatText rest
  | _ :: rest => concatText rest

/-- The tool-call events of a run, in call order, as Anthropic `tool_use`
blocks. -/
def toolUseBlocks (evs : List StreamChunk) : List Anthropic.ContentBlock :=
  evs.filterMap fun e =>
    match e with
    | .toolCall id name args => some (Anthropic.ContentBlock.toolUse id name args)
    | _ => none

/-- Folding the Anthropic accumulator appends exactly the run's text. -/
theorem anthropic_foldl_accumulatedText (evs : List StreamChunk) :
    ∀ s : Anthropic.FoldState,
      (evs.foldl Anthropic.foldStep s).accumulatedText = s.accumulatedText ++ concatText evs := by
  induction evs with
  | nil => intro s; simp [concatText]
  | cons e rest ih =>
      intro s
      cases e with
      | text t => simp [Anthropic.foldStep, concatText, ih, String.append_assoc]
      | toolCall id name args => simp [Anthropic.foldStep, concatText, ih]
      | usage i o => simp [Anthropic.foldStep, concatText, ih]

/-- Folding the Anthropic accumulator appends exactly the run's tool calls
as `tool_use` blocks, in call order. -/
theorem anthropic_foldl_contentBlocks (evs : List StreamChunk) :
    ∀ s : Anthropic.FoldState,
      (evs.foldl Anthropic.foldStep s).contentBlocks = s.contentBlocks ++ toolUseBlocks evs := by
  induction evs with
  | nil => intro s; simp [toolUseBlocks]
  | cons e rest ih =>
      intro s
      cases e with
      | text t => simp [Anthropic.foldStep, toolUseBlocks, ih]
      | toolCall id name args => simp [Anthropic.foldStep, toolUseBlocks, ih]
      | usage i o => simp [Anthropic.foldStep, toolUseBlocks, ih]

/-- C5: for the backend events `TextDelta("Hello"), TextDelta(" there"),
UsageEvent(3,2)` the OpenAI non-streaming formatter returns
`choices[0].message.content = "Hello there"`, `finish_reason = "stop"` and
`usage = {prompt_tokens:3, completion_tokens:2, total_tokens:5}`. -/
theorem openai_scenario_a :
    OpenAI.handleChatCompletion
        [StreamChunk.text "Hello", StreamChunk.text " there", StreamChunk.usage 3 2]
      = { message := { role := "assistant", content := .str "Hello there", tool_calls := [] }
          finish_reason := "stop"
          usage := { prompt_tokens := 3, completion_tokens := 2, total_tokens := 5 } } := by
  rfl

/-- C2: for the backend events
`ToolCallEvent("t1","get_weather",{location:"SF"}), UsageEvent(5,1)` the
Anthropic streaming handler emits exactly `message_start`,
`content_block_start(0, tool_use)`, `content_block_delta(0,
input_json_delta` with the whole JSON-encoded arguments`)`,
`content_block_stop(0)`, `message_delta("tool_use", output_tokens 1)`,
`message_stop`, and nothing else. -/
theorem anthropic_scenario_c :
    Anthropic.handleStreamingMessages
        [StreamChunk.toolCall "t1" "get_weather" (Json.obj [("location", Json.str "SF")]),
         StreamChunk.usage 5 1]
      = [Anthropic.Frame.messageStart,
         Anthropic.Frame.contentBlockStartTool 0 "t1" "get_weather",
         Anthropic.Frame.contentBlockDeltaJson 0 "\x7b\"location\":\"SF\"\x7d",
         Anthropic.Frame.contentBlockStop 0,
         Anthropic.Frame.messageDelta "tool_use" 1,
         Anthropic.Frame.messageStop] := by
  rfl

/-- C1: for every backend event sequence whose terminal event is
`UsageEvent(inTok, outTok)`, the OpenAI non-streaming formatter reports
`{prompt_tokens: inTok, completion_tokens: outTok}` and the Anthropic
non-streaming formatter reports `{input_tokens: inTok, output_tokens:
outTok}` — the same pair in both. -/
theorem usage_parity (es : List StreamChunk) (inTok outTok : Nat) :
    (OpenAI.handleChatCompletion (es ++ [StreamChunk.usage inTok outTok])).usage
        = { prompt_tokens := inTok, completion_tokens := outTok,
            total_tokens := inTok + outTok } ∧
    (Anthropic.handleMessages (es ++ [StreamChunk.usage inTok outTok])).usage
        = { input_tokens := inTok, output_tokens := outTok } := by
  constructor
  · simp [OpenAI.handleChatCompletion, List.foldl_append, OpenAI.foldStep]
  · simp [Anthropic.handleMessages, List.foldl_append, Anthropic.foldStep]

/-- C6: for every backend run, the Anthropic non-streaming response's
content is a single text block holding the concatenated text (present only
when that text is non-empty) followed by one `tool_use` block per tool-call
event in call order, and its `stop_reason` is `"tool_use"` when any
tool-call event occurred and `"end_turn"` otherwise. -/
theorem anthropic_content_order (evs : List StreamChunk) :
    (Anthropic.handleMessages evs).content
        = (if concatText evs ≠ "" then [Anthropic.ContentBlock.text (concatText evs)] else [])
            ++ toolUseBlocks evs ∧
    (Anthropic.handleMessages evs).stop_reason
        = if (toolUseBlocks evs).isEmpty then "end_turn" else "tool_use" := by
  have hacc := anthropic_foldl_accumulatedText evs ⟨"", [], 0, 0⟩
  have hblk := anthropic_foldl_contentBlocks evs ⟨"", [], 0, 0⟩
  constructor
  · simp only [Anthropic.handleMessages]
    rw [hacc, hblk]
    simp
  · simp only [Anthropic.handleMessages]
    rw [hblk]
    cases h : (toolUseBlocks evs).isEmpty <;>
      simp_all [List.isEmpty_iff, List.length_pos]

/-! ## C10: the backend adapter yields only text and usage chunks -/

/-- Concatenation of a list of strings (the order of accumulation of
`accumulatedText`). -/
def joinAll : List String → String
  | [] => ""
  | s :: rest => s ++ joinAll rest

/-- The text chunk value, if any, that one model response part is converted
to by `createMessage`: a text part's value verbatim, a valid tool-call part
serialized to the JSON string
`{type:'tool_call', name, arguments, callId}`, nothing otherwise. -/
def yieldedText : LMPart → Option String
  | .text v => some v
  | .toolCall callId name input =>
      if name = "" ∨ callId = "" ∨ VsCodeLM.jsObjectTruthy input = false then none
      else some (VsCodeLM.serializeToolCall name input callId)
  | .toolResult _ _ => none

/-- The `createMessage` loop yields exactly the converted text chunks
followed by one terminal usage chunk counting the accumulated text. -/
theorem createMessageLoop_spec (ct : String → Nat) (inTok : Nat) (parts : List LMPart) :
    ∀ acc : String,
      VsCodeLM.createMessageLoop ct inTok parts acc
        = (parts.filterMap yieldedText).map StreamChunk.text ++
          [StreamChunk.usage inTok
            (VsCodeLM.handlerCountTokens ct (acc ++ joinAll (parts.filterMap yieldedText)))] := by
  induction parts with
  | nil => intro acc; simp [VsCodeLM.createMessageLoop, joinAll]
  | cons p rest ih =>
      intro acc
      cases p with
      | text v =>
          simp [VsCodeLM.createMessageLoop, yieldedText, List.filterMap_cons, ih,
            joinAll, String.append_assoc]
      | toolCall callId name input =>
          by_cases h : name = "" ∨ callId = "" ∨ VsCodeLM.jsObjectTruthy input = false
          · simp [VsCodeLM.createMessageLoop, yieldedText, List.filterMap_cons, h, ih]
          · simp [VsCodeLM.createMessageLoop, yieldedText, List.filterMap_cons, h, ih,
              joinAll, String.append_assoc]
      | toolResult callId content =>
          simp [VsCodeLM.createMessageLoop, yieldedText, List.filterMap_cons, ih]

/-- C10: every chunk yielded by the backend adapter's `createMessage` has
type `text` or type `usage` — never `tool_call`: the stream is exactly the
per-part converted text chunks (a model tool-call part becoming the JSON
serialization `{type:'tool_call', name, arguments, callId}` as a text
chunk) followed by one terminal usage chunk whose output count is computed
over the accumulation of those same text values. -/
theorem createMessage_only_text_and_usage (ct : String → Nat)
    (messages : List LMMessage) (responseParts : List LMPart) :
    VsCodeLM.createMessage ct messages responseParts
        = (responseParts.filterMap yieldedText).map StreamChunk.text ++
          [StreamChunk.usage (VsCodeLM.calculateTotalInputTokens ct messages)
            (VsCodeLM.handlerCountTokens ct (joinAll (responseParts.filterMap yieldedText)))] ∧
    ∀ c ∈ VsCodeLM.createMessage ct messages responseParts,
      (∃ t, c = StreamChunk.text t) ∨ ∃ i o, c = StreamChunk.usage i o := by
  have h := createMessageLoop_spec ct (VsCodeLM.calculateTotalInputTokens ct messages)
    responseParts ""
  rw [String.empty_append] at h
  have hmain : VsCodeLM.createMessage ct messages responseParts
      = (responseParts.filterMap yieldedText).map StreamChunk.text ++
        [StreamChunk.usage (VsCodeLM.calculateTotalInputTokens ct messages)
          (VsCodeLM.handlerCountTokens ct (joinAll (responseParts.filterMap yieldedText)))] := by
    rw [VsCodeLM.createMessage, h]
  refine ⟨hmain, ?_⟩
  intro c hc
  rw [hmain] at hc
  rcases List.mem_append.mp hc with hc | hc
  · rcases List.mem_map.mp hc with ⟨t, _, rfl⟩
    exact Or.inl ⟨t, rfl⟩
  · rcases List.mem_singleton.mp hc with rfl
    exact Or.inr ⟨_, _, rfl⟩

/-! ## C7: a tool-call decode failure is skipped, siblings survive -/

/-- View of a converted part as a tool call `(callId, name, arguments)`. -/
def toolCallPartView : LMPart → Option (String × String × Json)
  | .toolCall callId name input => some (callId, name, input)
  | _ => none

/-- The tool-call parts produced from a `tool_calls` array are exactly the
entries whose arguments decode, in order. -/
theorem toolCalls_filterMap_view (parseJson : String → Option Json) :
    ∀ tcs : List OpenAI.ToolCall,
      (tcs.filterMap fun tc =>
          match parseJson tc.function.arguments with
          | some args => some (LMPart.toolCall tc.id tc.function.name args)
          | none => none).filterMap toolCallPartView
        = tcs.filterMap fun tc =>
            (parseJson tc.function.arguments).map fun args => (tc.id, tc.function.name, args) := by
  intro tcs
  induction tcs with
  | nil => rfl
  | cons tc rest ih =>
      cases h : parseJson tc.function.arguments with
      | none => simp [List.filterMap_cons, h, ih]
      | some args => simp [List.filterMap_cons, h, toolCallPartView, ih]

/-- C7: for an assistant wire message, the tool-call parts of its conversion
are exactly its `tool_calls` entries whose JSON-encoded arguments decode —
an entry whose arguments fail to decode is skipped while every sibling
whose arguments decode still yields its part, and the conversion is a total
function (a decode failure never aborts it). -/
theorem openai_toolcall_decode_skip (parseJson : String → Option Json)
    (m : OpenAI.ChatMessage) (h : m.role = OpenAI.MessageRole.assistant) :
    (OpenAI.messageParts parseJson m).filterMap toolCallPartView
      = m.tool_calls.filterMap fun tc =>
          (parseJson tc.function.arguments).map fun args => (tc.id, tc.function.name, args) := by
  rw [OpenAI.messageParts, List.filterMap_append, toolCalls_filterMap_view]
  have hbase :
      (if m.role = OpenAI.MessageRole.tool ∧ OpenAI.toolCallIdTruthy m.tool_call_id
            ∧ OpenAI.contentTruthy m.content then
          [LMPart.toolResult (m.tool_call_id.getD "") [OpenAI.toolResultString m.content]]
        else
          let textContent := OpenAI.textContentOf m.content
          if textContent ≠ "" then [LMPart.text textContent] else []).filterMap toolCallPartView
        = [] := by
    rw [h]
    simp only [if_neg (by simp : ¬(OpenAI.MessageRole.assistant = OpenAI.MessageRole.tool
      ∧ OpenAI.toolCallIdTruthy m.tool_call_id ∧ OpenAI.contentTruthy m.content))]
    split <;> simp [toolCallPartView]
  rw [hbase, List.nil_append]

/-- C7 witness: a message with one malformed and one well-formed tool call
keeps exactly the well-formed one. -/
theorem openai_toolcall_decode_skip_witness :
    (OpenAI.ChatMessage.mk OpenAI.MessageRole.assistant (OpenAI.MessageContent.str "hi")
        [⟨"bad", ⟨"f", "oops"⟩⟩, ⟨"good", ⟨"g", "\x7b\x7d"⟩⟩] none).role
        = OpenAI.MessageRole.assistant ∧
    (OpenAI.messageParts (fun s => if s = "\x7b\x7d" then some (Json.obj []) else none)
        (OpenAI.ChatMessage.mk OpenAI.MessageRole.assistant (OpenAI.MessageContent.str "hi")
          [⟨"bad", ⟨"f", "oops"⟩⟩, ⟨"good", ⟨"g", "\x7b\x7d"⟩⟩] none)).filterMap toolCallPartView
      = (OpenAI.ChatMessage.mk OpenAI.MessageRole.assistant (OpenAI.MessageContent.str "hi")
          [⟨"bad", ⟨"f", "oops"⟩⟩, ⟨"good", ⟨"g", "\x7b\x7d"⟩⟩] none).tool_calls.filterMap
          fun tc => ((fun s => if s = "\x7b\x7d" then some (Json.obj []) else none)
              tc.function.arguments).map fun args => (tc.id, tc.function.name, args) :=
  ⟨rfl, openai_toolcall_decode_skip
    (fun s => if s = "\x7b\x7d" then some (Json.obj []) else none)
    (OpenAI.ChatMessage.mk OpenAI.MessageRole.assistant (OpenAI.MessageContent.str "hi")
      [⟨"bad", ⟨"f", "oops"⟩⟩, ⟨"good", ⟨"g", "\x7b\x7d"⟩⟩] none) rfl⟩

/-! ## C3: Anthropic content-block bookkeeping invariant -/

/-- A content-block lifecycle event of the Anthropic stream: a
`content_block_start` or `content_block_stop` frame, tagged with its
index. -/
inductive BlockTag where
  | start (index : Nat)
  | stop (index : Nat)
deriving DecidableEq, Repr

/-- The lifecycle tag, if any, a frame carries. -/
def frameBlockTag : Anthropic.Frame → Option BlockTag
  | .contentBlockStartText i => some (.start i)
  | .contentBlockStartTool i _ _ => some (.start i)
  | .contentBlockStop i => some (.stop i)
  | _ => none

/-- The subsequence of block lifecycle events of a frame list. -/
def blockTags (fs : List Anthropic.Frame) : List BlockTag :=
  fs.filterMap frameBlockTag

/-- The index a frame opens, if it is a `content_block_start`. -/
def frameStartIndex : Anthropic.Frame → Option Nat
  | .contentBlockStartText i => some i
  | .contentBlockStartTool i _ _ => some i
  | _ => none

/-- The indices opened over a frame list, in opening order. -/
def startIndices (fs : List Anthropic.Frame) : List Nat :=
  fs.filterMap frameStartIndex

/-- The lifecycle pattern of one well-bracketed block. -/
def startStopPair (i : Nat) : List BlockTag :=
  [BlockTag.start i, BlockTag.stop i]


/-- Invariant of the Anthropic streaming loop: from any state, the emitted
block lifecycle events are (the pending `content_block_stop` of an open
block, followed by) immediately bracketed `start i, stop i` pairs whose
indices are strictly increasing and bounded below by the current index. -/
theorem anthropic_streamLoop_spec (evs : List StreamChunk) :
    ∀ (idx : Nat) (isOpen htu : Bool) (ot : Nat),
      blockTags (Anthropic.streamLoop evs idx isOpen htu ot)
          = (if isOpen then [BlockTag.stop idx] else []) ++
            (startIndices (Anthropic.streamLoop evs idx isOpen htu ot)).flatMap startStopPair ∧
      List.Chain' (· < ·) (startIndices (Anthropic.streamLoop evs idx isOpen htu ot)) ∧
      ∀ x ∈ startIndices (Anthropic.streamLoop evs idx isOpen htu ot),
        (if isOpen then idx < x else idx ≤ x) := by
  induction evs with
  | nil =>
      intro idx isOpen htu ot
      cases isOpen <;>
        simp [Anthropic.streamLoop, blockTags, startIndices, List.filterMap_cons,
          frameBlockTag, frameStartIndex]
  | cons e rest ih =>
      intro idx isOpen htu ot
      cases e with
      | text t =>
          cases isOpen with
          | true =>
              obtain ⟨h1, h2, h3⟩ := ih idx true htu ot
              simp only [blockTags, startIndices] at h1 h2 h3 ⊢
              simp only [Anthropic.streamLoop, if_pos, List.filterMap_cons, frameBlockTag,
                frameStartIndex, List.cons_append, List.nil_append]
              simp only [if_pos trivial] at h1 ⊢
              exact ⟨h1, h2, h3⟩
          | false =>
              obtain ⟨h1, h2, h3⟩ := ih idx true htu ot
              simp only [blockTags, startIndices] at h1 h2 h3 ⊢
              simp only [Anthropic.streamLoop, Bool.false_eq_true, if_false,
                List.filterMap_cons, frameBlockTag, frameStartIndex,
                List.cons_append, List.nil_append]
              simp only [if_pos trivial] at h1
              rw [h1]
              refine ⟨by simp [startStopPair], ?_, ?_⟩
              · rw [List.chain'_cons']
                refine ⟨?_, h2⟩
                intro y hy
                have := h3 y (List.mem_of_mem_head? hy)
                simpa using this
              · intro x hx
                rcases List.mem_cons.mp hx with rfl | hx
                · simp
                · have := h3 x hx
                  simp at this ⊢
                  omega
      | toolCall id name args =>
          cases isOpen with
          | false =>
              obtain ⟨h1, h2, h3⟩ := ih (idx + 1) false true ot
              simp only [blockTags, startIndices] at h1 h2 h3 ⊢
              simp only [Bool.false_eq_true, if_false, List.nil_append] at h1 h3
              simp only [Anthropic.streamLoop, Bool.false_eq_true, if_false,
                List.filterMap_cons, frameBlockTag, frameStartIndex,
                List.cons_append, List.nil_append]
              rw [h1]
              refine ⟨by simp [startStopPair], ?_, ?_⟩
              · rw [List.chain'_cons']
                refine ⟨?_, h2⟩
                intro y hy
                have := h3 y (List.mem_of_mem_head? hy)
                omega
              · intro x hx
                rcases List.mem_cons.mp hx with rfl | hx
                · simp
                · have := h3 x hx
                  omega
          | true =>
              obtain ⟨h1, h2, h3⟩ := ih (idx + 2) false true ot
              simp only [blockTags, startIndices] at h1 h2 h3 ⊢
              simp only [Bool.false_eq_true, if_false, List.nil_append] at h1 h3
              simp only [Anthropic.streamLoop, if_pos trivial,
                List.filterMap_cons, frameBlockTag, frameStartIndex,
                List.cons_append, List.nil_append]
              rw [h1]
              refine ⟨by simp [startStopPair], ?_, ?_⟩
              · rw [List.chain'_cons']
                refine ⟨?_, h2⟩
                intro y hy
                have := h3 y (List.mem_of_mem_head? hy)
                omega
              · intro x hx
                rcases List.mem_cons.mp hx with rfl | hx
                · simp
                · have := h3 x hx
                  omega
      | usage i o =>
          obtain ⟨h1, h2, h3⟩ := ih idx isOpen htu o
          constructor
          · simpa [Anthropic.streamLoop] using h1
          constructor
          · simpa [Anthropic.streamLoop] using h2
          · simpa [Anthropic.streamLoop] using h3

/-- C3: in every Anthropic streaming response the block lifecycle frames
form the pattern `start i₁, stop i₁, start i₂, stop i₂, …` over the list of
opened indices, which is strictly increasing — so every index that appears
carries exactly one `content_block_start` and one `content_block_stop`, the
start precedes the stop, and the opened indices increase strictly. -/
theorem anthropic_block_index_monotone (evs : List StreamChunk) :
    blockTags (Anthropic.handleStreamingMessages evs)
        = (startIndices (Anthropic.handleStreamingMessages evs)).flatMap startStopPair ∧
    List.Chain' (· < ·) (startIndices (Anthropic.handleStreamingMessages evs)) := by
  obtain ⟨h1, h2, _⟩ := anthropic_streamLoop_spec evs 0 false false 0
  constructor
  · simpa [Anthropic.handleStreamingMessages, blockTags, startIndices, List.filterMap_cons,
      frameBlockTag, frameStartIndex] using h1
  · simpa [Anthropic.handleStreamingMessages, startIndices, List.filterMap_cons,
      frameStartIndex] using h2

/-! ## C4: OpenAI first-chunk role -/

/-- Once the first chunk has been sent (`isFirstChunk = false`), no further
chunk of the OpenAI streaming loop carries a `role`. -/
theorem openai_streamLoop_no_role (evs : List StreamChunk) :
    ∀ (hasToolCalls : Bool) (toolCallIndex : Nat),
      ∀ c ∈ OpenAI.streamLoop evs false hasToolCalls toolCallIndex, c.delta.role = none := by
  induction evs with
  | nil => intro htc tci c hc; simp [OpenAI.streamLoop] at hc
  | cons e rest ih =>
      intro htc tci c hc
      cases e with
      | text t =>
          rcases List.mem_cons.mp hc with rfl | hc
          · rfl
          · exact ih htc tci c hc
      | toolCall id name args =>
          simp only [OpenAI.streamLoop, Bool.false_eq_true, if_false, List.nil_append] at hc
          rcases List.mem_cons.mp hc with rfl | hc
          · rfl
          · exact ih true (tci + 1) c hc
      | usage i o =>
          rcases List.mem_cons.mp hc with rfl | hc
          · rfl
          · exact ih htc tci c hc

/-- C4 counterexample: a backend run with no text and no tool-call events
(only the terminal usage event) streams exactly one chunk — the final
empty-delta `finish_reason` chunk — and no chunk of that response carries
`delta.role = "assistant"`, refuting the claim for this response. -/
theorem openai_first_chunk_role_counterexample :
    (OpenAI.handleStreamingChatCompletion [StreamChunk.usage 0 0]).length = 1 ∧
    (OpenAI.handleStreamingChatCompletion [StreamChunk.usage 0 0]).countP
        (fun c => c.delta.role = some "assistant") = 0 := by
  constructor
  · rfl
  · rfl

/-- C4 (amended): for a backend run whose events before the terminal
`UsageEvent` are all text or tool-call events, if there is at least one
such event then exactly one chunk's delta carries `role:"assistant"` and it
is the first chunk of the stream; if there is none, the stream's only chunk
is the final empty-delta `finish_reason` chunk and no chunk carries a
role. -/
theorem openai_first_chunk_role (body : List StreamChunk) (inTok outTok : Nat)
    (hbody : ∀ e ∈ body,
      (∃ t, e = StreamChunk.text t) ∨ ∃ id n a, e = StreamChunk.toolCall id n a) :
    (body = [] →
      OpenAI.handleStreamingChatCompletion (body ++ [StreamChunk.usage inTok outTok])
        = [⟨{}, some "stop"⟩]) ∧
    (body ≠ [] →
      ∃ c cs,
        OpenAI.handleStreamingChatCompletion (body ++ [StreamChunk.usage inTok outTok])
            = c :: cs ∧
        c.delta.role = some "assistant" ∧
        ∀ c' ∈ cs, c'.delta.role = none) := by
  constructor
  · rintro rfl
    rfl
  · intro hne
    cases body with
    | nil => exact absurd rfl hne
    | cons e body' =>
        rcases hbody e (List.mem_cons_self e body') with ⟨t, rfl⟩ | ⟨id, n, a, rfl⟩
        · refine ⟨_, _, rfl, rfl, ?_⟩
          exact openai_streamLoop_no_role (body' ++ [StreamChunk.usage inTok outTok]) false 0
        · refine ⟨⟨{ role := some "assistant" }, none⟩,
            ⟨{ tool_calls := some ⟨0, id, n, Json.stringify a⟩ }, none⟩ ::
              OpenAI.streamLoop (body' ++ [StreamChunk.usage inTok outTok]) false true 1,
            ?_, rfl, ?_⟩
          · simp [OpenAI.handleStreamingChatCompletion, OpenAI.streamLoop]
          · intro c' hc'
            rcases List.mem_cons.mp hc' with rfl | hc'
            · rfl
            · exact openai_streamLoop_no_role (body' ++ [StreamChunk.usage inTok outTok]) true 1 c' hc'

/-- C4 witness: a run with one text event then the terminal usage event has
a first chunk carrying the role and no later role-carrying chunk. -/
theorem openai_first_chunk_role_witness :
    (∀ e ∈ [StreamChunk.text "Hi"],
      (∃ t, e = StreamChunk.text t) ∨ ∃ id n a, e = StreamChunk.toolCall id n a) ∧
    (([StreamChunk.text "Hi"] : List StreamChunk) ≠ [] →
      ∃ c cs,
        OpenAI.handleStreamingChatCompletion
            ([StreamChunk.text "Hi"] ++ [StreamChunk.usage 3 2]) = c :: cs ∧
        c.delta.role = some "assistant" ∧
        ∀ c' ∈ cs, c'.delta.role = none) :=
  ⟨fun e he => Or.inl ⟨"Hi", List.mem_singleton.mp he⟩,
   (openai_first_chunk_role [StreamChunk.text "Hi"] 3 2
      (fun e he => Or.inl ⟨"Hi", List.mem_singleton.mp he⟩)).2⟩

/-! ## C8: Anthropic tool_result content flattening -/

/-- C8 counterexample: a `tool_result` block whose content array is
`[text "a", image, text "b"]` is converted to a `ToolResult` whose content
is `"a\n\nb"` — the non-text sub-block contributes an empty string between
two separators — not `"a\nb"`, the join of the text sub-blocks alone that
the claim states. -/
theorem anthropic_toolresult_counterexample :
    Anthropic.messageParts
        ⟨Anthropic.AnthropicRole.user,
         Anthropic.BlockContent.blocks
           [Anthropic.ContentBlock.toolResult "t"
             (Anthropic.BlockContent.blocks
               [Anthropic.ContentBlock.text "a",
                Anthropic.ContentBlock.image ⟨"base64", "image/png", "ZZZ"⟩,
                Anthropic.ContentBlock.text "b"])]⟩
        = [LMPart.toolResult "t" ["a\n\nb"]] ∧
    "a\n\nb" ≠ "a\nb" := by
  constructor
  · rfl
  · decide

/-- The flattening described by the amended claim: string content passes
through; array content maps every sub-block to its text — a non-text
sub-block contributing `""` — and joins with `"\n"`. -/
def specToolResultText : Anthropic.BlockContent → String
  | .str s => s
  | .blocks bs =>
      String.intercalate "\n" (bs.map fun c =>
        match c with
        | .text t => t
        | _ => "")

/-- C8 (amended): for every Anthropic wire message containing a
`tool_result` content block, the adapter produces a `ToolResult` whose
content is the block's content when it is a string and otherwise its
sub-blocks mapped to their text (non-text sub-blocks contributing the empty
string) joined with a newline; in particular content `["a","b"]` as text
blocks yields `ToolResult` content `"a\nb"`. -/
theorem anthropic_toolresult_flattening (role : Anthropic.AnthropicRole)
    (pre post : List Anthropic.ContentBlock) (tuid : String) (c : Anthropic.BlockContent) :
    Anthropic.messageParts
        ⟨role, Anthropic.BlockContent.blocks
          (pre ++ Anthropic.ContentBlock.toolResult tuid c :: post)⟩
        = Anthropic.blockParts pre ++
            LMPart.toolResult tuid [specToolResultText c] :: Anthropic.blockParts post ∧
    Anthropic.messageParts
        ⟨role, Anthropic.BlockContent.blocks
          [Anthropic.ContentBlock.toolResult "t1"
            (Anthropic.BlockContent.blocks
              [Anthropic.ContentBlock.text "a", Anthropic.ContentBlock.text "b"])]⟩
        = [LMPart.toolResult "t1" ["a\nb"]] := by
  constructor
  · have hflat : Anthropic.flattenToolResultContent c = specToolResultText c := by
      cases c <;> rfl
    simp [Anthropic.messageParts, Anthropic.blockParts, List.filterMap_append,
      List.filterMap_cons, hflat]
  · rfl

/-! ## C9: empty turns are dropped, every backend message has a part -/

/-- C9: on both protocols, every message passed to the backend has at least
one content part, and a wire message whose conversion yields zero parts is
omitted from the converted sequence entirely. -/
theorem empty_turn_dropping :
    (∀ (parseJson : String → Option Json) (msgs : List OpenAI.ChatMessage),
      ∀ m ∈ OpenAI.convertToVsCodeLmMessages parseJson msgs, m.parts ≠ []) ∧
    (∀ (msgs : List Anthropic.AnthropicMessage) (sys : Option Anthropic.SystemPrompt),
      ∀ m ∈ Anthropic.convertToVsCodeLmMessages msgs sys, m.parts ≠ []) ∧
    (∀ (parseJson : String → Option Json) (pre : List OpenAI.ChatMessage)
        (msg : OpenAI.ChatMessage) (post : List OpenAI.ChatMessage),
      OpenAI.messageParts parseJson msg = [] →
      OpenAI.convertToVsCodeLmMessages parseJson (pre ++ msg :: post)
        = OpenAI.convertToVsCodeLmMessages parseJson (pre ++ post)) ∧
    (∀ (pre : List Anthropic.AnthropicMessage) (msg : Anthropic.AnthropicMessage)
        (post : List Anthropic.AnthropicMessage) (sys : Option Anthropic.SystemPrompt),
      Anthropic.messageParts msg = [] →
      Anthropic.convertToVsCodeLmMessages (pre ++ msg :: post) sys
        = Anthropic.convertToVsCodeLmMessages (pre ++ post) sys) := by
  refine ⟨?_, ?_, ?_, ?_⟩
  · intro parseJson msgs m hm
    rcases List.mem_filterMap.mp hm with ⟨x, _, hx⟩
    by_cases h : (OpenAI.messageParts parseJson x).length > 0
    · rw [if_pos h] at hx
      cases hx
      simpa [← List.length_pos] using h
    · rw [if_neg h] at hx
      cases hx
  · intro msgs sys m hm
    rcases List.mem_append.mp hm with hm | hm
    · by_cases h : Anthropic.extractSystemPrompt sys ≠ ""
      · rw [if_pos h] at hm
        rcases List.mem_singleton.mp hm with rfl
        simp
      · rw [if_neg h] at hm
        simp at hm
    · rcases List.mem_filterMap.mp hm with ⟨x, _, hx⟩
      by_cases h : (Anthropic.messageParts x).length > 0
      · rw [if_pos h] at hx
        cases hx
        simpa [← List.length_pos] using h
      · rw [if_neg h] at hx
        cases hx
  · intro parseJson pre msg post h
    simp [OpenAI.convertToVsCodeLmMessages, List.filterMap_append, List.filterMap_cons, h]
  · intro pre msg post sys h
    simp [Anthropic.convertToVsCodeLmMessages, List.filterMap_append, List.filterMap_cons, h]

/-- C9 witness: a tool-call-free assistant message with `null` content and an
Anthropic message with an empty block array each convert to zero parts and
are dropped from the converted sequences. -/
theorem empty_turn_dropping_witness :
    (OpenAI.messageParts (fun _ => none)
        (OpenAI.ChatMessage.mk OpenAI.MessageRole.assistant OpenAI.MessageContent.nullContent [] none)
      = []) ∧
    (OpenAI.convertToVsCodeLmMessages (fun _ => none)
        ([] ++ OpenAI.ChatMessage.mk OpenAI.MessageRole.assistant
            OpenAI.MessageContent.nullContent [] none :: [])
      = OpenAI.convertToVsCodeLmMessages (fun _ => none) ([] ++ [])) ∧
    (Anthropic.messageParts ⟨Anthropic.AnthropicRole.user, Anthropic.BlockContent.blocks []⟩
      = []) ∧
    (Anthropic.convertToVsCodeLmMessages
        ([] ++ ⟨Anthropic.AnthropicRole.user, Anthropic.BlockContent.blocks []⟩ :: []) none
      = Anthropic.convertToVsCodeLmMessages ([] ++ []) none) :=
  ⟨rfl,
   empty_turn_dropping.2.2.1 (fun _ => none) []
     (OpenAI.ChatMessage.mk OpenAI.MessageRole.assistant OpenAI.MessageContent.nullContent [] none)
     [] rfl,
   rfl,
   empty_turn_dropping.2.2.2 []
     ⟨Anthropic.AnthropicRole.user, Anthropic.BlockContent.blocks []⟩ [] none rfl⟩
